import Mathlib

/-!
Verification of the task/user CRUD services of this repository.

Part 1 embeds the JavaScript tasks API (src/task1-testing/src/app.js):
JSON-ish values are modelled by an inductive JsVal with JavaScript
truthiness, the validator, the store operations (createTask, updateTask,
deleteTask, findTaskById) and the GET /tasks query pipeline
(filter by completed, filter by priority, search, sort, paginate)
are translated function by function.  The search stage lowercases record
fields and therefore throws a TypeError on a non-string field (a state
an update with a falsy non-string description can reach); the stage is
embedded in an error monad and the try/catch of the route is the
serverError outcome of the list handler.  Strings are Lean Strings, reasoned
about through their character lists; String.length counts characters
where JavaScript counts UTF-16 code units (identical on the ASCII data
exercised here).  Array.prototype.sort is modelled by a stable insertion
sort, matching the ES2019 stability requirement.  Timestamps are plain
strings supplied explicitly by the caller.

Part 2 embeds the Go users API (src/task3-unknown-language/main.go):
validateUser, isValidEmail, and the SQLite-backed store.  The store is
modelled from the schema declared in createTable: the UNIQUE email
column makes INSERT or UPDATE that would duplicate the email of another
row fail with a unique-constraint error before mutating anything, which
the handlers translate into the 409 conflict response.
-/

/-- A JavaScript runtime value as far as the tasks API inspects values:
strings, (integer) numbers, booleans, undefined and null.  Numeric
strings and numbers are restricted to integers, which covers every value
the service actually handles. -/
inductive JsVal where
  | str (s : String)
  | num (n : Int)
  | bool (b : Bool)
  | undef
  | null
deriving DecidableEq

/-- JavaScript truthiness of a value: an empty string, 0, false,
undefined and null are falsy. -/
def truthy : JsVal → Bool
  | .str s => decide (s ≠ "")
  | .num n => decide (n ≠ 0)
  | .bool b => b
  | .undef => false
  | .null => false

/-- Whether typeof v is the string string. -/
def isString : JsVal → Bool
  | .str _ => true
  | _ => false

/-- Whether typeof v is the string boolean. -/
def isBool : JsVal → Bool
  | .bool _ => true
  | _ => false

/-- The expression a || b of JavaScript: a when truthy, otherwise b. -/
def jsOr (a b : JsVal) : JsVal :=
  if truthy a then a else b

/-- Drop the whitespace prefix of a character list. -/
def trimLeft (l : List Char) : List Char :=
  l.dropWhile Char.isWhitespace

/-- Drop the whitespace suffix of a character list. -/
def trimRight (l : List Char) : List Char :=
  (l.reverse.dropWhile Char.isWhitespace).reverse

/-- String.prototype.trim of JavaScript (and strings.TrimSpace of Go):
remove leading and trailing whitespace. -/
def jsTrim (s : String) : String :=
  String.mk (trimRight (trimLeft s.data))

/-- The test v.length > n as JavaScript evaluates it inside validateTask:
only strings have a numeric length property; on any other value the
comparison undefined > n is false. -/
def jsLenGt (v : JsVal) (n : Nat) : Bool :=
  match v with
  | .str s => decide (n < s.length)
  | _ => false

/-- The expression v.trim().length as used in the title rule; it is only
reached when v is a string (the typeof guard short-circuits first), so
the value returned for non-strings is irrelevant. -/
def jsTrimLen (v : JsVal) : Nat :=
  match v with
  | .str s => (jsTrim s).length
  | _ => 0

/-- Array.prototype.includes of a string array applied to a value:
SameValueZero equality, so only a string can match. -/
def jsIncludes (l : List String) (v : JsVal) : Bool :=
  match v with
  | .str s => l.contains s
  | _ => false

/-- The raw create/update candidate for a task: the four fields that
validateTask inspects, each an arbitrary runtime value (missing key =
undefined). -/
structure Candidate where
  title : JsVal
  description : JsVal
  completed : JsVal
  priority : JsVal
deriving DecidableEq

/-- Condition of the title-required rule of validateTask. -/
def titleMissing (c : Candidate) : Bool :=
  !truthy c.title || !isString c.title || (jsTrimLen c.title == 0)

/-- Condition of the title-length rule of validateTask. -/
def titleTooLong (c : Candidate) : Bool :=
  truthy c.title && jsLenGt c.title 200

/-- Condition of the description-type rule of validateTask. -/
def descNotString (c : Candidate) : Bool :=
  truthy c.description && !isString c.description

/-- Condition of the description-length rule of validateTask. -/
def descTooLong (c : Candidate) : Bool :=
  truthy c.description && jsLenGt c.description 1000

/-- Condition of the completed-type rule of validateTask. -/
def completedNotBool (c : Candidate) : Bool :=
  !(c.completed == JsVal.undef) && !isBool c.completed

/-- Condition of the priority rule of validateTask. -/
def priorityBad (c : Candidate) : Bool :=
  truthy c.priority && !jsIncludes ["low", "medium", "high"] c.priority

/-- The validateTask function of app.js: six independent rules, each
appending its message when violated, in the fixed source order. -/
def validateTask (c : Candidate) : List String :=
  (if titleMissing c then ["Title is required and must be a non-empty string"] else []) ++
  (if titleTooLong c then ["Title must be less than 200 characters"] else []) ++
  (if descNotString c then ["Description must be a string"] else []) ++
  (if descTooLong c then ["Description must be less than 1000 characters"] else []) ++
  (if completedNotBool c then ["Completed must be a boolean"] else []) ++
  (if priorityBad c then ["Priority must be one of: low, medium, high"] else [])

/-- A record as held in the tasks array.  The update handler spreads the
raw request body over a record, so every data field can in principle
hold any runtime value; only id, createdAt and updatedAt are written by
the service itself as strings (and can also be overwritten by a spread). -/
structure StoredTask where
  id : JsVal
  title : JsVal
  description : JsVal
  completed : JsVal
  priority : JsVal
  createdAt : JsVal
  updatedAt : JsVal
deriving DecidableEq

/-- The candidate view of a stored record: the four fields that
validateTask reads. -/
def candOf (t : StoredTask) : Candidate :=
  ⟨t.title, t.description, t.completed, t.priority⟩

/-- The expression v.trim() applied by createTask to the (validated,
hence string) title; on a non-string JavaScript would throw, a case the
create handler never reaches. -/
def jsTrimVal : JsVal → JsVal
  | .str s => .str (jsTrim s)
  | v => v

/-- The createTask function of app.js: trims the title, defaults
description, completed and priority with ||, stamps both timestamps.
The fresh uuid and the current time are explicit parameters. -/
def createTask (body : Candidate) (newId now : String) : StoredTask :=
  { id := .str newId
    title := jsTrimVal body.title
    description := jsOr body.description (.str "")
    completed := jsOr body.completed (.bool false)
    priority := jsOr body.priority (.str "medium")
    createdAt := .str now
    updatedAt := .str now }

/-- The findTaskById function of app.js: first record whose id strictly
equals the given id string. -/
def findTaskById (tasks : List StoredTask) (pid : String) : Option StoredTask :=
  tasks.find? (fun t => t.id == JsVal.str pid)

/-- An update payload: the JSON request body spread over the stored
record.  A field is none when the key is absent from the body and some v
when present with value v; present keys override the stored field. -/
structure UpdateBody where
  id : Option JsVal := none
  title : Option JsVal := none
  description : Option JsVal := none
  completed : Option JsVal := none
  priority : Option JsVal := none
  createdAt : Option JsVal := none
  updatedAt : Option JsVal := none
deriving DecidableEq

/-- The object literal of updateTask: existing record spread first, then
the payload, then updatedAt set to the current time. -/
def mergeTask (t : StoredTask) (u : UpdateBody) (now : String) : StoredTask :=
  { id := u.id.getD t.id
    title := u.title.getD t.title
    description := u.description.getD t.description
    completed := u.completed.getD t.completed
    priority := u.priority.getD t.priority
    createdAt := u.createdAt.getD t.createdAt
    updatedAt := .str now }

/-- The candidate that the update handler validates: the stored record
overlaid with the payload (the spread task then body). -/
def mergedCand (t : StoredTask) (u : UpdateBody) : Candidate :=
  ⟨u.title.getD t.title, u.description.getD t.description,
   u.completed.getD t.completed, u.priority.getD t.priority⟩

/-- The updateTask function of app.js: find the first record with the
given id, replace it in place by the merged record, and return it; when
the id is unknown the array is untouched and null is returned. -/
def updateTask : List StoredTask → String → UpdateBody → String →
    List StoredTask × Option StoredTask
  | [], _, _, _ => ([], none)
  | t :: ts, pid, u, now =>
    if t.id == JsVal.str pid then
      (mergeTask t u now :: ts, some (mergeTask t u now))
    else
      let r := updateTask ts pid u now
      (t :: r.1, r.2)

/-- The deleteTask function of app.js: splice out the first record with
the given id; the boolean reports whether one was found. -/
def deleteTask (tasks : List StoredTask) (pid : String) : List StoredTask × Bool :=
  if tasks.any (fun t => t.id == JsVal.str pid) then
    (tasks.eraseP (fun t => t.id == JsVal.str pid), true)
  else
    (tasks, false)

/-- The POST /tasks handler effect on the store: validate the body, and
only on an empty error list append the created record. -/
def postTask (tasks : List StoredTask) (body : Candidate) (newId now : String) :
    List StoredTask :=
  if validateTask body = [] then tasks ++ [createTask body newId now] else tasks

/-- The PUT /tasks/:id handler effect on the store: 404 when the id is
unknown, validate the merged record, and only on an empty error list
store it. -/
def putTask (tasks : List StoredTask) (pid : String) (u : UpdateBody) (now : String) :
    List StoredTask :=
  match findTaskById tasks pid with
  | none => tasks
  | some t =>
    if validateTask (mergedCand t u) = [] then (updateTask tasks pid u now).1
    else tasks

/-- One mutating API operation against the tasks store, with the fresh
identifier and timestamp it would draw from the environment. -/
inductive TaskOp where
  | post (body : Candidate) (newId now : String)
  | put (pid : String) (u : UpdateBody) (now : String)
  | del (pid : String)
  | delAll
deriving DecidableEq

/-- Effect of one API operation on the tasks collection. -/
def applyOp (tasks : List StoredTask) : TaskOp → List StoredTask
  | .post body newId now => postTask tasks body newId now
  | .put pid u now => putTask tasks pid u now
  | .del pid => (deleteTask tasks pid).1
  | .delAll => []

/-- The query string of GET /tasks: each recognized parameter is either
absent or a raw string. -/
structure TasksQuery where
  completed : Option String := none
  priority : Option String := none
  search : Option String := none
  sortBy : Option String := none
  sortOrder : Option String := none
  page : Option String := none
  limit : Option String := none
deriving DecidableEq

/-- The completed filter stage: present parameter compares the record
field with completed === (value === true-string), so any present value
other than the exact string selects the false records. -/
def completedStage (tasks : List StoredTask) (c : Option String) : List StoredTask :=
  match c with
  | none => tasks
  | some s => tasks.filter (fun t => t.completed == JsVal.bool (s == "true"))

/-- The priority filter stage: guarded by truthiness of the raw
parameter, so an empty string skips the stage. -/
def priorityStage (tasks : List StoredTask) (p : Option String) : List StoredTask :=
  match p with
  | none => tasks
  | some s => if s = "" then tasks else tasks.filter (fun t => t.priority == JsVal.str s)

/-- Substring containment, String.prototype.includes. -/
def strIncludes (hay needle : String) : Bool :=
  hay.data.tails.any (fun t => needle.data.isPrefixOf t)

/-- The expression v.toLowerCase() of the search stage: defined on
strings; on any other value JavaScript throws a TypeError, which the
try/catch of the route turns into the 500 response.  The throwing case
is reachable, since an update whose body carries a falsy non-string
description passes validateTask and is stored. -/
def jsToLowerE : JsVal → Except Unit String
  | .str s => .ok s.toLower
  | _ => .error ()

/-- The search predicate on one record: lower the title and test it,
and only on a miss lower the description (the short-circuit of the
JavaScript or); a TypeError propagates. -/
def searchPred (term : String) (t : StoredTask) : Except Unit Bool :=
  match jsToLowerE t.title with
  | .error e => .error e
  | .ok tl =>
    if strIncludes tl term then .ok true
    else
      match jsToLowerE t.description with
      | .error e => .error e
      | .ok dl => .ok (strIncludes dl term)

/-- Array.prototype.filter with a callback that can throw: the elements
are tested left to right and the first exception aborts the whole
call. -/
def filterE {α : Type} (p : α → Except Unit Bool) : List α → Except Unit (List α)
  | [] => .ok []
  | x :: xs =>
    match p x with
    | .error e => .error e
    | .ok b =>
      match filterE p xs with
      | .error e => .error e
      | .ok r => .ok (if b then x :: r else r)

/-- The search filter stage: guarded by truthiness of the raw
parameter, case-insensitive substring match against title or
description; a non-string field raises through the stage. -/
def searchStage (tasks : List StoredTask) (s : Option String) :
    Except Unit (List StoredTask) :=
  match s with
  | none => .ok tasks
  | some term =>
    if term = "" then .ok tasks
    else filterE (searchPred term.toLower) tasks

/-- Dynamic property access a[sortBy] on a stored record: an
unrecognized name yields undefined. -/
def getField (t : StoredTask) (k : String) : JsVal :=
  if k = "id" then t.id
  else if k = "title" then t.title
  else if k = "description" then t.description
  else if k = "completed" then t.completed
  else if k = "priority" then t.priority
  else if k = "createdAt" then t.createdAt
  else if k = "updatedAt" then t.updatedAt
  else JsVal.undef

/-- Decimal value of a digit run. -/
def decDigitsVal (l : List Char) : Nat :=
  l.foldl (fun a c => a * 10 + (c.toNat - 48)) 0

/-- Whether a character is a hexadecimal digit. -/
def isHexDigitCh (c : Char) : Bool :=
  c.isDigit || ('a' ≤ c && c ≤ 'f') || ('A' ≤ c && c ≤ 'F')

/-- Value of a hexadecimal digit. -/
def hexDigitVal (c : Char) : Nat :=
  if c.isDigit then c.toNat - 48 else if 'a' ≤ c then c.toNat - 87 else c.toNat - 55

/-- Whether a character is an octal digit. -/
def isOctDigitCh (c : Char) : Bool :=
  '0' ≤ c && c ≤ '7'

/-- Whether a character is a binary digit. -/
def isBinDigitCh (c : Char) : Bool :=
  c == '0' || c == '1'

/-- A JavaScript number as the comparator observes it: a finite value
or an infinity; NaN is the absence of a number, Option.none one level
up.  Finite values are evaluated exactly as rationals; the binary64
rounding of the runtime is not modelled. -/
inductive JsNum where
  | finite (q : ℚ)
  | pinf
  | ninf
deriving DecidableEq

/-- Negation of a number, for the sign of a numeric string. -/
def jsNumNeg : JsNum → JsNum
  | .finite q => .finite (-q)
  | .pinf => .ninf
  | .ninf => .pinf

/-- Split a numeric literal at its exponent marker e or E. -/
def splitOnExp : List Char → List Char × Option (List Char)
  | [] => ([], none)
  | c :: rest =>
    if c == 'e' || c == 'E' then ([], some rest)
    else
      let r := splitOnExp rest
      (c :: r.1, r.2)

/-- An exponent part: optional sign then a nonempty digit run, fully
consumed. -/
def parseExpInt (l : List Char) : Option Int :=
  match l with
  | '-' :: ds =>
    if !ds.isEmpty && ds.all Char.isDigit then some (-(decDigitsVal ds : Int)) else none
  | '+' :: ds =>
    if !ds.isEmpty && ds.all Char.isDigit then some ((decDigitsVal ds : Int)) else none
  | ds =>
    if !ds.isEmpty && ds.all Char.isDigit then some ((decDigitsVal ds : Int)) else none

/-- A decimal mantissa: digits, or digits dot digits with either side
optional but not both, fully consumed. -/
def parseMantissa (l : List Char) : Option ℚ :=
  match l.dropWhile Char.isDigit with
  | [] =>
    if (l.takeWhile Char.isDigit).isEmpty then none
    else some ((decDigitsVal (l.takeWhile Char.isDigit) : ℚ))
  | '.' :: frac =>
    if frac.all Char.isDigit && !((l.takeWhile Char.isDigit).isEmpty && frac.isEmpty) then
      some ((decDigitsVal (l.takeWhile Char.isDigit) : ℚ) +
        (decDigitsVal frac : ℚ) / (10 : ℚ) ^ frac.length)
    else none
  | _ => none

/-- A decimal literal with optional exponent, evaluated exactly. -/
def parseDecimalQ (l : List Char) : Option ℚ :=
  match splitOnExp l with
  | (m, none) => parseMantissa m
  | (m, some el) =>
    match parseMantissa m, parseExpInt el with
    | some q, some e => some (q * (10 : ℚ) ^ e)
    | _, _ => none

/-- A full nonempty digit run in the given radix, fully consumed. -/
def parseRadixAll (radix : Nat) (isD : Char → Bool) (val : Char → Nat)
    (l : List Char) : Option ℚ :=
  if !l.isEmpty && l.all isD then
    some ((l.foldl (fun a c => a * radix + val c) 0 : ℚ))
  else none

/-- The literal allowed after an explicit sign in ToNumber: Infinity or
a decimal literal (radix forms take no sign). -/
def parseSignedTail (l : List Char) : Option JsNum :=
  if l = "Infinity".data then some JsNum.pinf
  else (parseDecimalQ l).map JsNum.finite

/-- An unsigned ToNumber literal: Infinity, a 0x, 0o or 0b radix
literal, or a decimal literal. -/
def parseUnsignedNum (l : List Char) : Option JsNum :=
  if l = "Infinity".data then some JsNum.pinf
  else
    match l with
    | '0' :: 'x' :: rest => (parseRadixAll 16 isHexDigitCh hexDigitVal rest).map JsNum.finite
    | '0' :: 'X' :: rest => (parseRadixAll 16 isHexDigitCh hexDigitVal rest).map JsNum.finite
    | '0' :: 'o' :: rest => (parseRadixAll 8 isOctDigitCh (fun c => c.toNat - 48) rest).map JsNum.finite
    | '0' :: 'O' :: rest => (parseRadixAll 8 isOctDigitCh (fun c => c.toNat - 48) rest).map JsNum.finite
    | '0' :: 'b' :: rest => (parseRadixAll 2 isBinDigitCh (fun c => c.toNat - 48) rest).map JsNum.finite
    | '0' :: 'B' :: rest => (parseRadixAll 2 isBinDigitCh (fun c => c.toNat - 48) rest).map JsNum.finite
    | _ => (parseDecimalQ l).map JsNum.finite

/-- ToNumber of a string: trim, the empty remainder is 0, optional
sign, then an Infinity, radix or decimal literal; none models NaN. -/
def strToNumber (s : String) : Option JsNum :=
  match (jsTrim s).data with
  | [] => some (JsNum.finite 0)
  | '-' :: rest => (parseSignedTail rest).map jsNumNeg
  | '+' :: rest => parseSignedTail rest
  | l => parseUnsignedNum l

/-- ToNumber of a value; none models NaN. -/
def toNumber : JsVal → Option JsNum
  | .num n => some (.finite (n : ℚ))
  | .bool b => some (.finite (if b then 1 else 0))
  | .null => some (.finite 0)
  | .undef => none
  | .str s => strToNumber s

/-- Order on numbers with the two infinities. -/
def jsNumLt : JsNum → JsNum → Bool
  | .finite x, .finite y => decide (x < y)
  | .finite _, .pinf => true
  | .finite _, .ninf => false
  | .pinf, _ => false
  | .ninf, .ninf => false
  | .ninf, _ => true

/-- The relational comparison a < b of JavaScript: lexicographic when
both operands are strings, otherwise numeric with NaN making the
comparison false; in particular undefined < undefined is false. -/
def jsLt (a b : JsVal) : Bool :=
  match a, b with
  | .str x, .str y => decide (x < y)
  | a, b =>
    match toNumber a, toNumber b with
    | some x, some y => jsNumLt x y
    | _, _ => false

/-- The comparator passed to sort: -1·ord, 1·ord or 0 from the two
relational tests on the chosen field (a > b being b < a). -/
def taskCmp (k : String) (ord : Int) (a b : StoredTask) : Int :=
  if jsLt (getField a k) (getField b k) then -1 * ord
  else if jsLt (getField b k) (getField a k) then 1 * ord
  else 0

/-- Stable insertion of an element in front of the first strictly
greater one. -/
def insertCmp (cmp : StoredTask → StoredTask → Int) (x : StoredTask) :
    List StoredTask → List StoredTask
  | [] => [x]
  | y :: ys => if cmp x y ≤ 0 then x :: y :: ys else y :: insertCmp cmp x ys

/-- Stable insertion sort; agrees with Array.prototype.sort (stable
since ES2019) on every consistent comparator. -/
def sortByCmp (cmp : StoredTask → StoredTask → Int) : List StoredTask → List StoredTask
  | [] => []
  | x :: xs => insertCmp cmp x (sortByCmp cmp xs)

/-- The sort stage of GET /tasks. -/
def sortStage (tasks : List StoredTask) (k : String) (ord : Int) : List StoredTask :=
  sortByCmp (taskCmp k ord) tasks

/-- The sortBy default: the raw parameter unless absent or falsy. -/
def sortByOf (q : TasksQuery) : String :=
  match q.sortBy with
  | none => "createdAt"
  | some s => if s = "" then "createdAt" else s

/-- The sortOrder sign: -1 exactly on the string desc. -/
def sortOrderOf (q : TasksQuery) : Int :=
  if q.sortOrder == some "desc" then -1 else 1

/-- The leading decimal digit run of parseInt; none models NaN. -/
def parseIntDigits (l : List Char) : Option Nat :=
  match l.takeWhile Char.isDigit with
  | [] => none
  | ds => some (decDigitsVal ds)

/-- The leading hexadecimal digit run of parseInt after the 0x marker;
none models NaN. -/
def parseIntHex (l : List Char) : Option Nat :=
  match l.takeWhile isHexDigitCh with
  | [] => none
  | ds => some (ds.foldl (fun a c => a * 16 + hexDigitVal c) 0)

/-- The unsigned part of parseInt: a 0x or 0X marker selects radix 16,
anything else is read as decimal. -/
def parseIntAbs (l : List Char) : Option Nat :=
  match l with
  | '0' :: 'x' :: rest => parseIntHex rest
  | '0' :: 'X' :: rest => parseIntHex rest
  | _ => parseIntDigits l

/-- The parseInt of JavaScript with no radix argument: skip leading
whitespace, optional sign, then the longest digit run, in radix 16
after a 0x marker and radix 10 otherwise; none models NaN. -/
def parseIntStr (s : String) : Option Int :=
  match s.data.dropWhile Char.isWhitespace with
  | '-' :: rest => (parseIntAbs rest).map (fun n => -(n : Int))
  | '+' :: rest => (parseIntAbs rest).map (fun n => (n : Int))
  | l => (parseIntAbs l).map (fun n => (n : Int))

/-- The page value: the parsed parameter when present and numeric,
otherwise 1; zero and negatives pass through unclamped. -/
def pageOf (q : TasksQuery) : Int :=
  match q.page with
  | none => 1
  | some s => match parseIntStr s with
    | none => 1
    | some n => n

/-- The limit value: the parsed parameter when present and numeric,
otherwise 10; zero and negatives pass through unclamped. -/
def limitOf (q : TasksQuery) : Int :=
  match q.limit with
  | none => 10
  | some s => match parseIntStr s with
    | none => 10
    | some n => n

/-- Index resolution of Array.prototype.slice: negative indices count
from the end, clamped to [0, length]. -/
def jsSliceIdx (len : Nat) (i : Int) : Nat :=
  if i < 0 then (len + i).toNat else min i.toNat len

/-- Array.prototype.slice over arbitrary integer bounds. -/
def jsSlice {α : Type} (l : List α) (s e : Int) : List α :=
  (l.take (jsSliceIdx l.length e)).drop (jsSliceIdx l.length s)

/-- The slice served for one page: slice(startIndex, endIndex) with
startIndex = (page-1)·limit and endIndex = startIndex + limit. -/
def pageSlice (l : List StoredTask) (page limit : Int) : List StoredTask :=
  jsSlice l ((page - 1) * limit) ((page - 1) * limit + limit)

/-- Math.ceil(n / d) for integers with d nonzero, via Euclidean
division. -/
def jsCeil (n d : Int) : Int :=
  if 0 < d then -((-n) / d) else -(n / (-d))

/-- The totalPages value of the response: Math.ceil(total / limit).
With limit = 0 JavaScript produces Infinity (or NaN for 0/0), which
JSON.stringify serializes as null; none models that serialized value. -/
def totalPagesOf (total : Nat) (limit : Int) : Option Int :=
  if limit = 0 then none else some (jsCeil total limit)

/-- The JSON body answered by GET /tasks. -/
structure ListResponse where
  tasks : List StoredTask
  page : Int
  limit : Int
  total : Nat
  totalPages : Option Int
deriving DecidableEq

/-- The filter part of the pipeline: completed, then priority, then
search, in source order; only the search stage can raise. -/
def filterStages (tasks : List StoredTask) (q : TasksQuery) :
    Except Unit (List StoredTask) :=
  searchStage (priorityStage (completedStage tasks q.completed) q.priority) q.search

/-- The HTTP outcome of GET /tasks: the JSON body on success, or the
500 response produced by the catch of the route when the pipeline
throws. -/
inductive TasksListResult where
  | ok (r : ListResponse)
  | serverError
deriving DecidableEq

/-- The GET /tasks handler: filter, sort, paginate and the pagination
metadata block, all inside the try/catch of the route. -/
def listTasks (tasks : List StoredTask) (q : TasksQuery) : TasksListResult :=
  match filterStages tasks q with
  | .error _ => .serverError
  | .ok filtered =>
    .ok { tasks := pageSlice (sortStage filtered (sortByOf q) (sortOrderOf q))
            (pageOf q) (limitOf q)
          page := pageOf q
          limit := limitOf q
          total := (sortStage filtered (sortByOf q) (sortOrderOf q)).length
          totalPages := totalPagesOf
            (sortStage filtered (sortByOf q) (sortOrderOf q)).length (limitOf q) }

/-- The request body of the users API: name, email and age, as decoded
from JSON into the Go UserRequest struct (missing keys decode to the
zero values of the field types). -/
structure UserRequest where
  name : String
  email : String
  age : Int
deriving DecidableEq

/-- The isValidEmail helper of main.go: strings.Contains with the
one-character needles at-sign and dot amounts to character membership. -/
def isValidEmail (email : String) : Bool :=
  email.data.contains '@' && email.data.contains '.'

/-- The validateUser function of main.go: six independent checks, each
appending its message, in the fixed source order.  Go counts bytes in
len(user.Name); the model counts characters, identical on ASCII. -/
def validateUser (u : UserRequest) : List String :=
  (if jsTrim u.name = "" then ["Name is required"] else []) ++
  (if 100 < u.name.length then ["Name must be less than 100 characters"] else []) ++
  (if jsTrim u.email = "" then ["Email is required"] else []) ++
  (if !isValidEmail u.email then ["Invalid email format"] else []) ++
  (if u.age < 0 then ["Age must be non-negative"] else []) ++
  (if 150 < u.age then ["Age must be less than 150"] else [])

/-- A row of the users table. -/
structure DbUser where
  id : Int
  name : String
  email : String
  age : Int
  createdAt : String
deriving DecidableEq

/-- The users table with its AUTOINCREMENT counter. -/
structure UsersDb where
  users : List DbUser
  nextId : Int
deriving DecidableEq

/-- Modelled from the schema declared in createTable (email TEXT NOT
NULL UNIQUE): INSERT INTO users fails with a unique-constraint error
when any existing row already holds the email, otherwise appends a row
under the next identifier. -/
def dbInsertUser (db : UsersDb) (u : UserRequest) (now : String) :
    Except Unit (UsersDb × Int) :=
  if db.users.any (fun r => r.email == u.email) then .error ()
  else .ok ({ users := db.users ++ [⟨db.nextId, u.name, u.email, u.age, now⟩],
              nextId := db.nextId + 1 }, db.nextId)

/-- Modelled from the schema declared in createTable: UPDATE users SET
name, email, age WHERE id = uid.  When no row matches, zero rows are
affected and no constraint is checked; when the new email duplicates a
different row the statement fails with a unique-constraint error and
changes nothing; otherwise the matching rows are rewritten and counted. -/
def dbUpdateUser (db : UsersDb) (uid : Int) (u : UserRequest) :
    Except Unit (UsersDb × Nat) :=
  if db.users.any (fun r => r.id == uid) then
    if db.users.any (fun r => r.id != uid && r.email == u.email) then .error ()
    else .ok ({ db with users := db.users.map (fun r =>
      if r.id == uid then { r with name := u.name, email := u.email, age := u.age }
      else r) }, (db.users.filter (fun r => r.id == uid)).length)
  else .ok (db, 0)

/-- The response sent by a users handler, reduced to status plus the
payload the claims inspect. -/
inductive UserApiResult where
  | badRequest (details : List String)
  | conflict (msg : String)
  | created (u : DbUser)
  | okUser (u : DbUser)
  | notFound
  | serverError
deriving DecidableEq

/-- The createUserHandler of main.go after JSON decoding: validate,
insert, map the unique-constraint failure to the 409 conflict, then
fetch the created row. -/
def createUserHandler (db : UsersDb) (req : UserRequest) (now : String) :
    UserApiResult × UsersDb :=
  if validateUser req ≠ [] then (.badRequest (validateUser req), db)
  else
    match dbInsertUser db req now with
    | .error _ => (.conflict "Email already exists", db)
    | .ok (db2, uid) =>
      match db2.users.find? (fun r => r.id == uid) with
      | some u => (.created u, db2)
      | none => (.serverError, db2)

/-- The updateUserHandler of main.go after the id was parsed from the
URL and the JSON decoded: validate, update, map the unique-constraint
failure to the 409 conflict, report 404 on zero affected rows, then
fetch the updated row. -/
def updateUserHandler (db : UsersDb) (uid : Int) (req : UserRequest) :
    UserApiResult × UsersDb :=
  if validateUser req ≠ [] then (.badRequest (validateUser req), db)
  else
    match dbUpdateUser db uid req with
    | .error _ => (.conflict "Email already exists", db)
    | .ok (db2, n) =>
      if n = 0 then (.notFound, db2)
      else
        match db2.users.find? (fun r => r.id == uid) with
        | some u => (.okUser u, db2)
        | none => (.serverError, db2)

theorem dropWhile_dropWhile_self {α : Type} (p : α → Bool) (l : List α) :
    (l.dropWhile p).dropWhile p = l.dropWhile p := by
  induction l with
  | nil => rfl
  | cons a l ih =>
    by_cases h : p a
    · simp [List.dropWhile_cons, h, ih]
    · simp [List.dropWhile_cons, h]

theorem trimLeft_trimLeft (l : List Char) : trimLeft (trimLeft l) = trimLeft l :=
  dropWhile_dropWhile_self _ l

theorem trimRight_trimRight (l : List Char) : trimRight (trimRight l) = trimRight l := by
  simp [trimRight, List.reverse_reverse, dropWhile_dropWhile_self]

theorem trimRight_isPrefix (l : List Char) : trimRight l <+: l := by
  have h : List.dropWhile Char.isWhitespace l.reverse <:+ l.reverse :=
    List.dropWhile_suffix Char.isWhitespace
  have h2 := List.reverse_prefix.mpr h
  rw [List.reverse_reverse] at h2
  exact h2

theorem trimLeft_of_trimLeft_fixed (m : List Char) (h : trimLeft m = m) :
    trimLeft (trimRight m) = trimRight m := by
  cases hE : trimRight m with
  | nil => rfl
  | cons c r =>
    obtain ⟨t, ht⟩ := trimRight_isPrefix m
    rw [hE] at ht
    have hm : m = c :: (r ++ t) := by rw [← ht]; rfl
    have hc : Char.isWhitespace c = false := by
      by_contra hcc
      rw [Bool.not_eq_false] at hcc
      have hlen : (List.dropWhile Char.isWhitespace (r ++ t)).length ≤ (r ++ t).length :=
        (List.dropWhile_suffix Char.isWhitespace).length_le
      rw [hm] at h
      simp only [trimLeft, List.dropWhile_cons, hcc, if_true] at h
      have h3 := congrArg List.length h
      rw [List.length_cons] at h3
      omega
    simp [trimLeft, List.dropWhile_cons, hc]

theorem jsTrim_idem (s : String) : jsTrim (jsTrim s) = jsTrim s := by
  show String.mk (trimRight (trimLeft (trimRight (trimLeft s.data)))) = _
  rw [trimLeft_of_trimLeft_fixed _ (trimLeft_trimLeft s.data), trimRight_trimRight]
  rfl

theorem trimRight_length_le (l : List Char) : (trimRight l).length ≤ l.length := by
  have h : List.dropWhile Char.isWhitespace l.reverse <:+ l.reverse :=
    List.dropWhile_suffix Char.isWhitespace
  have := h.length_le
  simpa [trimRight] using this

theorem jsTrim_length_le (s : String) : (jsTrim s).length ≤ s.length := by
  show (trimRight (trimLeft s.data)).length ≤ s.data.length
  have h : List.dropWhile Char.isWhitespace s.data <:+ s.data :=
    List.dropWhile_suffix Char.isWhitespace
  exact (trimRight_length_le _).trans h.length_le

theorem jsTrim_empty_all_ws (s : String) (h : jsTrim s = "") :
    ∀ c ∈ s.data, Char.isWhitespace c = true := by
  have hd : trimRight (trimLeft s.data) = [] := congrArg String.data h
  have hrev : (trimLeft s.data).reverse.dropWhile Char.isWhitespace = [] := by
    have := congrArg List.reverse hd
    simpa [trimRight] using this
  have h2 : ∀ c ∈ trimLeft s.data, Char.isWhitespace c := by
    intro c hc
    exact List.dropWhile_eq_nil_iff.mp hrev c (List.mem_reverse.mpr hc)
  intro c hc
  have hsplit := List.takeWhile_append_dropWhile Char.isWhitespace s.data
  rw [← hsplit] at hc
  rcases List.mem_append.mp hc with hc | hc
  · exact List.mem_takeWhile_imp hc
  · exact h2 c hc

theorem string_ne_empty_of_length (s : String) (h : s.length ≠ 0) : s ≠ "" := by
  intro he
  rw [he] at h
  exact h rfl

theorem ifList_eq_nil (b : Bool) (m : String) :
    (if b then [m] else []) = [] ↔ b = false := by
  cases b <;> simp

theorem validateTask_eq_nil_iff (c : Candidate) :
    validateTask c = [] ↔
      titleMissing c = false ∧ titleTooLong c = false ∧ descNotString c = false ∧
      descTooLong c = false ∧ completedNotBool c = false ∧ priorityBad c = false := by
  simp only [validateTask, List.append_eq_nil, ifList_eq_nil]
  tauto

theorem and_eq_false_elim (a b : Bool) (h : (a && b) = false) : a = false ∨ b = false := by
  rcases a <;> rcases b <;> simp_all

theorem jsLenGt_false_of_not_string (v : JsVal) (n : Nat) (h : isString v = false) :
    jsLenGt v n = false := by
  cases v <;> simp_all [jsLenGt, isString]

theorem titleMissing_false_elim (c : Candidate) (h : titleMissing c = false) :
    truthy c.title = true ∧ isString c.title = true ∧ jsTrimLen c.title ≠ 0 := by
  unfold titleMissing at h
  cases hb1 : truthy c.title with
  | false => rw [hb1] at h; simp at h
  | true =>
    cases hb2 : isString c.title with
    | false => rw [hb1, hb2] at h; simp at h
    | true =>
      rw [hb1, hb2] at h
      simp only [Bool.not_true, Bool.false_or] at h
      exact ⟨rfl, rfl, by simpa using h⟩

theorem isString_str_exists (v : JsVal) (h : isString v = true) : ∃ s, v = JsVal.str s := by
  cases v with
  | str s => exact ⟨s, rfl⟩
  | num n => simp [isString] at h
  | bool b => simp [isString] at h
  | undef => simp [isString] at h
  | null => simp [isString] at h

theorem createTask_valid (body : Candidate) (newId now : String)
    (h : validateTask body = []) :
    validateTask (candOf (createTask body newId now)) = [] := by
  rw [validateTask_eq_nil_iff] at h ⊢
  obtain ⟨h1, h2, h3, h4, h5, h6⟩ := h
  obtain ⟨ht, hs, hlen⟩ := titleMissing_false_elim _ h1
  obtain ⟨s, hsv⟩ := isString_str_exists _ hs
  rw [hsv] at ht hlen
  have hne : jsTrim s ≠ "" := string_ne_empty_of_length _ (by simpa [jsTrimLen] using hlen)
  have hle : s.length ≤ 200 := by
    rw [titleTooLong, hsv] at h2
    rcases and_eq_false_elim _ _ h2 with hx | hx
    · rw [ht] at hx; exact Bool.noConfusion hx
    · simpa [jsLenGt] using hx
  refine ⟨?_, ?_, ?_, ?_, ?_, ?_⟩
  · have hlen2 : (jsTrim (jsTrim s)).length ≠ 0 := by
      rw [jsTrim_idem]
      simpa [jsTrimLen] using hlen
    simp [titleMissing, candOf, createTask, jsTrimVal, hsv, truthy, isString, jsTrimLen, hne, hlen2]
  · have hle2 : (jsTrim s).length ≤ 200 := (jsTrim_length_le s).trans hle
    simp only [titleTooLong, candOf, createTask, jsTrimVal, hsv]
    have : jsLenGt (JsVal.str (jsTrim s)) 200 = false := by
      simp [jsLenGt]; omega
    rw [this, Bool.and_false]
  · simp only [descNotString, candOf, createTask, jsOr]
    cases hd : truthy body.description with
    | true =>
      rw [if_pos rfl]
      rw [descNotString] at h3
      rcases and_eq_false_elim _ _ h3 with hx | hx
      · rw [hd] at hx; exact Bool.noConfusion hx
      · rw [hx, Bool.and_false]
    | false =>
      rw [if_neg (by simp)]
      simp [truthy]
  · simp only [descTooLong, candOf, createTask, jsOr]
    cases hd : truthy body.description with
    | true =>
      rw [if_pos rfl]
      rw [descTooLong] at h4
      rcases and_eq_false_elim _ _ h4 with hx | hx
      · rw [hd] at hx; exact Bool.noConfusion hx
      · rw [hx, Bool.and_false]
    | false =>
      rw [if_neg (by simp)]
      simp [truthy, jsLenGt]
  · simp only [completedNotBool, candOf, createTask, jsOr]
    cases hb : truthy body.completed with
    | true =>
      rw [if_pos rfl]
      rw [completedNotBool] at h5
      rcases and_eq_false_elim _ _ h5 with hx | hx
      · have hu : body.completed = JsVal.undef := by
          cases hc : body.completed <;> rw [hc] at hx <;> simp_all
        rw [hu] at hb; simp [truthy] at hb
      · rw [hx, Bool.and_false]
    | false =>
      rw [if_neg (by simp)]
      simp [completedNotBool, isBool]
  · simp only [priorityBad, candOf, createTask, jsOr]
    cases hp : truthy body.priority with
    | true =>
      rw [if_pos rfl]
      rw [priorityBad] at h6
      rcases and_eq_false_elim _ _ h6 with hx | hx
      · rw [hp] at hx; exact Bool.noConfusion hx
      · rw [hx, Bool.and_false]
    | false =>
      rw [if_neg (by simp)]
      simp [priorityBad, jsIncludes]

theorem updateTask_snd (tasks : List StoredTask) (pid : String) (u : UpdateBody) (now : String)
    (t : StoredTask) (hf : findTaskById tasks pid = some t) :
    (updateTask tasks pid u now).2 = some (mergeTask t u now) := by
  induction tasks with
  | nil => simp [findTaskById] at hf
  | cons hd ts ih =>
    rw [findTaskById] at hf
    by_cases hp : (hd.id == JsVal.str pid) = true
    · simp only [List.find?, hp] at hf
      injection hf with hf
      subst hf
      simp [updateTask, hp]
    · have hpf : (hd.id == JsVal.str pid) = false := by simpa using hp
      simp only [List.find?, hpf] at hf
      simp only [updateTask, hpf, if_false, Bool.false_eq_true]
      exact ih hf

theorem mem_updateTask (tasks : List StoredTask) (pid : String) (u : UpdateBody) (now : String)
    (t : StoredTask) (hf : findTaskById tasks pid = some t) :
    ∀ x ∈ (updateTask tasks pid u now).1, x ∈ tasks ∨ x = mergeTask t u now := by
  induction tasks with
  | nil => intro x hx; simp [updateTask] at hx
  | cons hd ts ih =>
    rw [findTaskById] at hf
    by_cases hp : (hd.id == JsVal.str pid) = true
    · simp only [List.find?, hp] at hf
      injection hf with hf
      subst hf
      intro x hx
      simp only [updateTask, hp, if_true] at hx
      rcases List.mem_cons.mp hx with hx | hx
      · right; exact hx
      · left; exact List.mem_cons_of_mem _ hx
    · have hpf : (hd.id == JsVal.str pid) = false := by simpa using hp
      simp only [List.find?, hpf] at hf
      intro x hx
      simp only [updateTask, hpf, if_false, Bool.false_eq_true] at hx
      rcases List.mem_cons.mp hx with hx | hx
      · left; rw [hx]; exact List.mem_cons_self _ _
      · rcases ih hf x hx with hm | hm
        · left; exact List.mem_cons_of_mem _ hm
        · right; exact hm

theorem putTask_valid (tasks : List StoredTask) (pid : String) (u : UpdateBody) (now : String)
    (h : ∀ t ∈ tasks, validateTask (candOf t) = []) :
    ∀ x ∈ putTask tasks pid u now, validateTask (candOf x) = [] := by
  intro x hx
  cases hft : findTaskById tasks pid with
  | none =>
    rw [putTask, hft] at hx
    exact h x hx
  | some t0 =>
    simp only [putTask, hft] at hx
    by_cases hval : validateTask (mergedCand t0 u) = []
    · rw [if_pos hval] at hx
      rcases mem_updateTask tasks pid u now t0 hft x hx with hm | hm
      · exact h x hm
      · rw [hm]
        show validateTask (mergedCand t0 u) = []
        exact hval
    · rw [if_neg hval] at hx
      exact h x hx

theorem mem_deleteTask (tasks : List StoredTask) (pid : String) :
    ∀ x ∈ (deleteTask tasks pid).1, x ∈ tasks := by
  intro x hx
  rw [deleteTask] at hx
  by_cases hc : tasks.any (fun t => t.id == JsVal.str pid) = true
  · rw [if_pos hc] at hx
    exact (List.eraseP_sublist tasks).mem hx
  · rw [if_neg hc] at hx
    exact hx

theorem applyOp_valid (tasks : List StoredTask) (op : TaskOp)
    (h : ∀ t ∈ tasks, validateTask (candOf t) = []) :
    ∀ x ∈ applyOp tasks op, validateTask (candOf x) = [] := by
  cases op with
  | post body newId now =>
    intro x hx
    rw [applyOp, postTask] at hx
    by_cases hval : validateTask body = []
    · rw [if_pos hval] at hx
      rcases List.mem_append.mp hx with hm | hm
      · exact h x hm
      · rw [List.mem_singleton.mp hm]
        exact createTask_valid body newId now hval
    · rw [if_neg hval] at hx
      exact h x hx
  | put pid u now => exact putTask_valid tasks pid u now h
  | del pid =>
    intro x hx
    exact h x (mem_deleteTask tasks pid x hx)
  | delAll =>
    intro x hx
    simp [applyOp] at hx

theorem foldl_applyOp_valid (ops : List TaskOp) :
    ∀ s : List StoredTask, (∀ t ∈ s, validateTask (candOf t) = []) →
      ∀ x ∈ ops.foldl applyOp s, validateTask (candOf x) = [] := by
  induction ops with
  | nil => intro s hs x hx; exact hs x hx
  | cons op ops ih =>
    intro s hs x hx
    rw [List.foldl_cons] at hx
    exact ih (applyOp s op) (applyOp_valid s op hs) x hx

theorem insertCmp_zero (cmp : StoredTask → StoredTask → Int) (x : StoredTask)
    (l : List StoredTask) (h : ∀ y ∈ l, cmp x y = 0) : insertCmp cmp x l = x :: l := by
  cases l with
  | nil => rfl
  | cons y ys =>
    have hy : cmp x y = 0 := h y (List.mem_cons_self y ys)
    simp [insertCmp, hy]

theorem sortByCmp_zero (cmp : StoredTask → StoredTask → Int) (l : List StoredTask)
    (h : ∀ a ∈ l, ∀ b ∈ l, cmp a b = 0) : sortByCmp cmp l = l := by
  induction l with
  | nil => rfl
  | cons x xs ih =>
    rw [sortByCmp]
    rw [ih (fun a ha b hb => h a (List.mem_cons_of_mem _ ha) b (List.mem_cons_of_mem _ hb))]
    exact insertCmp_zero cmp x xs
      (fun y hy => h x (List.mem_cons_self x xs) y (List.mem_cons_of_mem _ hy))

theorem taskCmp_zero_of_undef (k : String) (ord : Int) (a b : StoredTask)
    (ha : getField a k = JsVal.undef) (hb : getField b k = JsVal.undef) :
    taskCmp k ord a b = 0 := by
  simp [taskCmp, ha, hb, jsLt, toNumber]

theorem insertCmp_length (cmp : StoredTask → StoredTask → Int) (x : StoredTask)
    (l : List StoredTask) : (insertCmp cmp x l).length = l.length + 1 := by
  induction l with
  | nil => rfl
  | cons y ys ih =>
    rw [insertCmp]
    by_cases h : cmp x y ≤ 0
    · rw [if_pos h]; simp
    · rw [if_neg h]; simp [ih]

theorem sortByCmp_length (cmp : StoredTask → StoredTask → Int) (l : List StoredTask) :
    (sortByCmp cmp l).length = l.length := by
  induction l with
  | nil => rfl
  | cons x xs ih =>
    rw [sortByCmp, insertCmp_length, ih, List.length_cons]

theorem sortStage_length (tasks : List StoredTask) (k : String) (ord : Int) :
    (sortStage tasks k ord).length = tasks.length :=
  sortByCmp_length _ tasks

theorem isValidEmail_false_of_trim_empty (s : String) (h : jsTrim s = "") :
    isValidEmail s = false := by
  rw [isValidEmail]
  have hall := jsTrim_empty_all_ws s h
  have h1 : s.data.contains '@' = false := by
    by_contra hc
    rw [Bool.not_eq_false] at hc
    have hmem : '@' ∈ s.data := List.elem_iff.mp hc
    have := hall _ hmem
    simp [Char.isWhitespace] at this
  rw [h1, Bool.false_and]

theorem jsSliceIdx_natCast (len a : Nat) : jsSliceIdx len (a : Int) = min a len := by
  rw [jsSliceIdx, if_neg (by omega)]
  simp

theorem take_min_length {α : Type} (l : List α) (b : Nat) :
    l.take (min b l.length) = l.take b := by
  rcases le_total b l.length with h | h
  · rw [min_eq_left h]
  · rw [min_eq_right h, List.take_length, List.take_of_length_le h]

theorem jsSlice_nat {α : Type} (l : List α) (a b : Nat) :
    jsSlice l (a : Int) (b : Int) = (l.take b).drop a := by
  rw [jsSlice, jsSliceIdx_natCast, jsSliceIdx_natCast, take_min_length]
  rcases le_total a l.length with h | h
  · rw [min_eq_left h]
  · rw [min_eq_right h]
    have h1 : (l.take b).length ≤ l.length := by
      rw [List.length_take]; omega
    rw [List.drop_eq_nil_of_le (by omega), List.drop_eq_nil_of_le (by omega)]

theorem pageSlice_nat (l : List StoredTask) (i L : Nat) :
    pageSlice l ((i : Int) + 1) (L : Int) = (l.drop (i * L)).take L := by
  have h1 : (((i : Int) + 1) - 1) * (L : Int) = ((i * L : Nat) : Int) := by push_cast; ring
  rw [pageSlice, h1]
  rw [show ((i * L : Nat) : Int) + (L : Int) = ((i * L + L : Nat) : Int) by push_cast; ring]
  rw [jsSlice_nat, List.drop_take]
  congr 1
  omega

theorem pages_concat (l : List StoredTask) (L k : Nat) :
    (List.range k).flatMap (fun i => (l.drop (i * L)).take L) = l.take (k * L) := by
  induction k with
  | zero => simp
  | succ k ih =>
    rw [List.range_succ, List.flatMap_append, ih]
    simp only [List.flatMap_cons, List.flatMap_nil, List.append_nil]
    rw [Nat.succ_mul, List.take_add]

theorem jsCeil_eq_ceil (n d : Int) (hd : d ≠ 0) : jsCeil n d = ⌈(n : ℚ) / (d : ℚ)⌉ := by
  rcases lt_or_gt_of_ne hd with hneg | hpos
  · rw [jsCeil, if_neg (by omega)]
    have hm : (((-d).toNat : ℕ) : Int) = -d := Int.toNat_of_nonneg (by omega)
    have h1 : (n : ℚ) / (d : ℚ) = -((n : ℚ) / (((-d).toNat : ℕ) : ℚ)) := by
      have : (((-d).toNat : ℕ) : ℚ) = -(d : ℚ) := by
        exact_mod_cast congrArg (fun z : Int => (z : ℚ)) hm
      rw [this]
      ring
    rw [h1, Int.ceil_neg, Rat.floor_intCast_div_natCast, hm]
  · rw [jsCeil, if_pos hpos]
    have hm : ((d.toNat : ℕ) : Int) = d := Int.toNat_of_nonneg hpos.le
    have h1 : (n : ℚ) / (d : ℚ) = -((((-n : Int)) : ℚ) / ((d.toNat : ℕ) : ℚ)) := by
      have : ((d.toNat : ℕ) : ℚ) = (d : ℚ) := by
        exact_mod_cast congrArg (fun z : Int => (z : ℚ)) hm
      rw [this]
      push_cast
      ring
    rw [h1, Int.ceil_neg, Rat.floor_intCast_div_natCast, hm]

theorem filter_ifList_out (p : String → Bool) (c : Prop) [Decidable c] (m : String)
    (hm : p m = false) : (if c then [m] else []).filter p = [] := by
  by_cases hc : c
  · rw [if_pos hc]
    simp [List.filter, hm]
  · rw [if_neg hc]
    rfl

theorem filter_ifList_keep (p : String → Bool) (c : Prop) [Decidable c] (m : String)
    (hc : c) (hm : p m = true) : (if c then [m] else []).filter p = [m] := by
  rw [if_pos hc]
  simp [List.filter, hm]

theorem jsSlice_start_oob {α : Type} (l : List α) (s e : Int)
    (h : (l.length : Int) ≤ s) : jsSlice l s e = [] := by
  rw [jsSlice]
  have h0 : ¬ s < 0 := by omega
  have h1 : jsSliceIdx l.length s = l.length := by
    rw [jsSliceIdx, if_neg h0]
    have : l.length ≤ s.toNat := by omega
    rw [min_eq_right this]
  rw [h1]
  apply List.drop_eq_nil_of_le
  rw [List.length_take]
  exact min_le_right _ _

/-- C1, counterexample: on a user whose email is the empty string,
validateUser returns the required message alongside the format message,
so the claim that only the format violation appears is false on the
code. -/
theorem validateUser_empty_email_reports_required :
    validateUser ⟨"A", "", 30⟩ = ["Email is required", "Invalid email format"] ∧
    "Email is required" ∈ validateUser ⟨"A", "", 30⟩ := by
  exact ⟨rfl, by decide⟩

/-- C1, amended: for every user candidate whose email is empty after
trimming, validateUser reports exactly the two email messages, the
required one first and the format one second. -/
theorem validateUser_empty_email_messages (u : UserRequest) (h : jsTrim u.email = "") :
    (validateUser u).filter
        (fun m => m == "Email is required" || m == "Invalid email format") =
      ["Email is required", "Invalid email format"] := by
  have hfmt : isValidEmail u.email = false := isValidEmail_false_of_trim_empty _ h
  rw [validateUser, List.filter_append, List.filter_append, List.filter_append,
    List.filter_append, List.filter_append]
  rw [filter_ifList_out _ _ _ (by decide), filter_ifList_out _ _ _ (by decide),
    filter_ifList_keep _ _ _ h (by decide),
    filter_ifList_keep _ _ _ (by rw [hfmt]; rfl) (by decide),
    filter_ifList_out _ _ _ (by decide), filter_ifList_out _ _ _ (by decide)]
  rfl

/-- C1, witness for the amended theorem at a whitespace email. -/
theorem validateUser_empty_email_messages_witness :
    jsTrim "  " = "" ∧
    (validateUser ⟨"Bob", "  ", 10⟩).filter
        (fun m => m == "Email is required" || m == "Invalid email format") =
      ["Email is required", "Invalid email format"] :=
  ⟨by decide, validateUser_empty_email_messages ⟨"Bob", "  ", 10⟩ (by decide)⟩

/-- C2, counterexample: an update payload that itself carries a
createdAt key overwrites the stored creation timestamp, so the claim
that createdAt is unchanged under every payload is false on the code. -/
theorem updateTask_createdAt_overridden :
    ((updateTask
        [⟨JsVal.str "t1", JsVal.str "Original", JsVal.str "", JsVal.bool false,
          JsVal.str "medium", JsVal.str "2024-01-01", JsVal.str "2024-01-01"⟩]
        "t1" ⟨none, none, none, none, none, some (JsVal.str "2030-12-31"), none⟩
        "2024-06-01").2.map (fun t => t.createdAt)) = some (JsVal.str "2030-12-31") ∧
    ((updateTask
        [⟨JsVal.str "t1", JsVal.str "Original", JsVal.str "", JsVal.bool false,
          JsVal.str "medium", JsVal.str "2024-01-01", JsVal.str "2024-01-01"⟩]
        "t1" ⟨none, none, none, none, none, some (JsVal.str "2030-12-31"), none⟩
        "2024-06-01").1.map (fun t => t.createdAt)) = [JsVal.str "2030-12-31"] ∧
    JsVal.str "2024-01-01" ≠ JsVal.str "2030-12-31" := by
  exact ⟨rfl, rfl, by decide⟩

/-- C2, amended: for every stored task and every update payload that
does not itself contain a createdAt field, updateTask stores and returns
the merge in which createdAt is unchanged, every absent field keeps its
pre-update value, and updatedAt is set to the refresh timestamp. -/
theorem updateTask_partial_update (tasks : List StoredTask) (pid now : String)
    (u : UpdateBody) (t : StoredTask)
    (hf : findTaskById tasks pid = some t) (hc : u.createdAt = none) :
    (updateTask tasks pid u now).2 = some (mergeTask t u now) ∧
    (mergeTask t u now).createdAt = t.createdAt ∧
    (mergeTask t u now).updatedAt = JsVal.str now ∧
    (u.id = none → (mergeTask t u now).id = t.id) ∧
    (u.title = none → (mergeTask t u now).title = t.title) ∧
    (u.description = none → (mergeTask t u now).description = t.description) ∧
    (u.completed = none → (mergeTask t u now).completed = t.completed) ∧
    (u.priority = none → (mergeTask t u now).priority = t.priority) := by
  refine ⟨updateTask_snd tasks pid u now t hf, ?_, rfl, ?_, ?_, ?_, ?_, ?_⟩
  · show u.createdAt.getD t.createdAt = t.createdAt
    rw [hc]
    rfl
  · intro h
    show u.id.getD t.id = t.id
    rw [h]
    rfl
  · intro h
    show u.title.getD t.title = t.title
    rw [h]
    rfl
  · intro h
    show u.description.getD t.description = t.description
    rw [h]
    rfl
  · intro h
    show u.completed.getD t.completed = t.completed
    rw [h]
    rfl
  · intro h
    show u.priority.getD t.priority = t.priority
    rw [h]
    rfl

/-- C2, witness for the amended theorem: a title-only payload against a
one-record store. -/
theorem updateTask_partial_update_witness :
    (updateTask
        [⟨JsVal.str "t1", JsVal.str "Original", JsVal.str "d", JsVal.bool false,
          JsVal.str "low", JsVal.str "2024-01-01", JsVal.str "2024-01-01"⟩]
        "t1" ⟨none, some (JsVal.str "New"), none, none, none, none, none⟩
        "2024-06-01").2 =
      some (mergeTask
        ⟨JsVal.str "t1", JsVal.str "Original", JsVal.str "d", JsVal.bool false,
          JsVal.str "low", JsVal.str "2024-01-01", JsVal.str "2024-01-01"⟩
        ⟨none, some (JsVal.str "New"), none, none, none, none, none⟩ "2024-06-01") ∧
    (mergeTask
        ⟨JsVal.str "t1", JsVal.str "Original", JsVal.str "d", JsVal.bool false,
          JsVal.str "low", JsVal.str "2024-01-01", JsVal.str "2024-01-01"⟩
        ⟨none, some (JsVal.str "New"), none, none, none, none, none⟩
        "2024-06-01").createdAt = JsVal.str "2024-01-01" := by
  have h := updateTask_partial_update
    [⟨JsVal.str "t1", JsVal.str "Original", JsVal.str "d", JsVal.bool false,
      JsVal.str "low", JsVal.str "2024-01-01", JsVal.str "2024-01-01"⟩]
    "t1" "2024-06-01" ⟨none, some (JsVal.str "New"), none, none, none, none, none⟩
    ⟨JsVal.str "t1", JsVal.str "Original", JsVal.str "d", JsVal.bool false,
      JsVal.str "low", JsVal.str "2024-01-01", JsVal.str "2024-01-01"⟩
    (by decide) rfl
  exact ⟨h.1, h.2.1⟩

/-- C3: whenever the filter pipeline succeeds (the search stage can
throw on a non-string field, answered as 500), the list response
reports total as the post-filter pre-pagination count; totalPages is
the rational ceiling of total / limit whenever limit is nonzero
(positive or negative), and the degenerate limit = 0 yields the
serialized null (Infinity or NaN under JSON.stringify), so no input
crashes the totalPages computation. -/
theorem listTasks_pagination_metadata (tasks : List StoredTask) (q : TasksQuery)
    (filtered : List StoredTask) (r : ListResponse)
    (hf : filterStages tasks q = .ok filtered)
    (hr : listTasks tasks q = TasksListResult.ok r) :
    r.total = filtered.length ∧
    (0 < r.limit → r.totalPages = some ⌈(r.total : ℚ) / (r.limit : ℚ)⌉) ∧
    (r.limit = 0 → r.totalPages = none) ∧
    (r.limit < 0 → r.totalPages = some ⌈(r.total : ℚ) / (r.limit : ℚ)⌉) := by
  simp only [listTasks, hf] at hr
  injection hr with e
  have htot : r.total = (sortStage filtered (sortByOf q) (sortOrderOf q)).length := by
    rw [← e]
  have hlim : r.limit = limitOf q := by rw [← e]
  have htp : r.totalPages =
      totalPagesOf (sortStage filtered (sortByOf q) (sortOrderOf q)).length (limitOf q) := by
    rw [← e]
  rw [htot, hlim, htp]
  refine ⟨sortStage_length _ _ _, ?_, ?_, ?_⟩
  · intro h
    rw [totalPagesOf, if_neg (by omega)]
    rw [jsCeil_eq_ceil _ _ (by omega)]
    norm_cast
  · intro h
    rw [totalPagesOf, if_pos h]
  · intro h
    rw [totalPagesOf, if_neg (by omega)]
    rw [jsCeil_eq_ceil _ _ (by omega)]
    norm_cast

/-- C3, witness: the default query against the empty store succeeds
with the positive default limit. -/
theorem listTasks_pagination_metadata_witness :
    (ListResponse.mk [] 1 10 0 (some 0)).totalPages =
      some ⌈((ListResponse.mk [] 1 10 0 (some 0)).total : ℚ) /
        ((ListResponse.mk [] 1 10 0 (some 0)).limit : ℚ)⌉ :=
  (listTasks_pagination_metadata [] ⟨none, none, none, none, none, none, none⟩ []
    (ListResponse.mk [] 1 10 0 (some 0)) rfl (by decide)).2.1 (by decide)

/-- C4: for every working set and every positive limit, concatenating
the slices served for pages 1 through the ceiling of length over limit
reproduces the set exactly, with no duplicate and no omission. -/
theorem pageSlices_concat_eq (l : List StoredTask) (L : Nat) (hL : 0 < L) :
    (List.range (l.length ⌈/⌉ L)).flatMap
        (fun i => pageSlice l ((i : Int) + 1) (L : Int)) = l := by
  have h1 : (List.range (l.length ⌈/⌉ L)).flatMap
      (fun i => pageSlice l ((i : Int) + 1) (L : Int)) =
      (List.range (l.length ⌈/⌉ L)).flatMap (fun i => (l.drop (i * L)).take L) := by
    simp only [pageSlice_nat]
  rw [h1, pages_concat]
  apply List.take_of_length_le
  have h2 : l.length ≤ L • (l.length ⌈/⌉ L) := le_smul_ceilDiv hL
  rw [smul_eq_mul] at h2
  calc l.length ≤ L * (l.length ⌈/⌉ L) := h2
    _ = (l.length ⌈/⌉ L) * L := Nat.mul_comm _ _

/-- C4, witness: three records, limit two, two pages. -/
theorem pageSlices_concat_eq_witness :
    (0 : Nat) < 2 ∧
    (List.range (([⟨JsVal.str "a", JsVal.str "A", JsVal.str "", JsVal.bool false,
        JsVal.str "low", JsVal.str "1", JsVal.str "1"⟩,
      ⟨JsVal.str "b", JsVal.str "B", JsVal.str "", JsVal.bool false,
        JsVal.str "low", JsVal.str "2", JsVal.str "2"⟩,
      ⟨JsVal.str "c", JsVal.str "C", JsVal.str "", JsVal.bool false,
        JsVal.str "low", JsVal.str "3", JsVal.str "3"⟩] : List StoredTask).length ⌈/⌉ 2)).flatMap
        (fun i => pageSlice
          [⟨JsVal.str "a", JsVal.str "A", JsVal.str "", JsVal.bool false,
            JsVal.str "low", JsVal.str "1", JsVal.str "1"⟩,
          ⟨JsVal.str "b", JsVal.str "B", JsVal.str "", JsVal.bool false,
            JsVal.str "low", JsVal.str "2", JsVal.str "2"⟩,
          ⟨JsVal.str "c", JsVal.str "C", JsVal.str "", JsVal.bool false,
            JsVal.str "low", JsVal.str "3", JsVal.str "3"⟩] ((i : Int) + 1) (2 : Int)) =
      [⟨JsVal.str "a", JsVal.str "A", JsVal.str "", JsVal.bool false,
        JsVal.str "low", JsVal.str "1", JsVal.str "1"⟩,
      ⟨JsVal.str "b", JsVal.str "B", JsVal.str "", JsVal.bool false,
        JsVal.str "low", JsVal.str "2", JsVal.str "2"⟩,
      ⟨JsVal.str "c", JsVal.str "C", JsVal.str "", JsVal.bool false,
        JsVal.str "low", JsVal.str "3", JsVal.str "3"⟩] :=
  ⟨by decide, pageSlices_concat_eq _ 2 (by decide)⟩

/-- C5: page is the parsed integer whenever the parameter is present
and numeric (zero, negatives and the 0x radix included, unclamped) and
1 otherwise; limit likewise with default 10; on every run on which the
pipeline succeeds (the search stage can throw, answered as 500) the
served page is the slice from (page-1)*limit to (page-1)*limit+limit of
the filtered sorted set; and a start index at or beyond the set length
yields the empty page rather than an error. -/
theorem listTasks_paging_defaults_and_slice (tasks : List StoredTask) (q : TasksQuery) :
    (q.page = none → pageOf q = 1) ∧
    (∀ s, q.page = some s → parseIntStr s = none → pageOf q = 1) ∧
    (∀ s n, q.page = some s → parseIntStr s = some n → pageOf q = n) ∧
    (q.limit = none → limitOf q = 10) ∧
    (∀ s, q.limit = some s → parseIntStr s = none → limitOf q = 10) ∧
    (∀ s n, q.limit = some s → parseIntStr s = some n → limitOf q = n) ∧
    (∀ filtered r, filterStages tasks q = .ok filtered →
      listTasks tasks q = TasksListResult.ok r →
      r.tasks = jsSlice (sortStage filtered (sortByOf q) (sortOrderOf q))
        ((pageOf q - 1) * limitOf q) ((pageOf q - 1) * limitOf q + limitOf q)) ∧
    (∀ filtered r, filterStages tasks q = .ok filtered →
      listTasks tasks q = TasksListResult.ok r →
      (((sortStage filtered (sortByOf q) (sortOrderOf q)).length : Int) ≤
          (pageOf q - 1) * limitOf q →
        r.tasks = [])) := by
  refine ⟨?_, ?_, ?_, ?_, ?_, ?_, ?_, ?_⟩
  · intro h
    rw [pageOf, h]
  · intro s hs hp
    simp only [pageOf, hs, hp]
  · intro s n hs hp
    simp only [pageOf, hs, hp]
  · intro h
    rw [limitOf, h]
  · intro s hs hp
    simp only [limitOf, hs, hp]
  · intro s n hs hp
    simp only [limitOf, hs, hp]
  · intro filtered r hf hr
    simp only [listTasks, hf] at hr
    injection hr with e
    rw [← e]
    rfl
  · intro filtered r hf hr hlen
    simp only [listTasks, hf] at hr
    injection hr with e
    rw [← e]
    show pageSlice (sortStage filtered (sortByOf q) (sortOrderOf q)) (pageOf q) (limitOf q) = []
    rw [pageSlice]
    exact jsSlice_start_oob _ _ _ hlen

/-- C5, witness: a hexadecimal page 0x10 with a non-numeric limit
against the empty store serves the empty page under the default
limit. -/
theorem listTasks_paging_defaults_and_slice_witness :
    pageOf ⟨none, none, none, none, none, some "0x10", some "xyz"⟩ = 16 ∧
    limitOf ⟨none, none, none, none, none, some "0x10", some "xyz"⟩ = 10 ∧
    (ListResponse.mk [] 16 10 0 (some 0)).tasks = [] := by
  have h := listTasks_paging_defaults_and_slice []
    ⟨none, none, none, none, none, some "0x10", some "xyz"⟩
  refine ⟨h.2.2.1 "0x10" 16 rfl (by decide), h.2.2.2.2.1 "xyz" rfl (by decide), ?_⟩
  exact h.2.2.2.2.2.2.2 [] (ListResponse.mk [] 16 10 0 (some 0)) rfl (by decide) (by decide)

/-- C7: when the chosen sortBy name is a field no record possesses, the
comparator sees undefined on both sides, every comparison is equal, and
the stable sort stage returns the working set in its prior order without
raising. -/
theorem sortStage_unknown_field_noop (tasks : List StoredTask) (k : String) (ord : Int)
    (h : ∀ t ∈ tasks, getField t k = JsVal.undef) :
    sortStage tasks k ord = tasks :=
  sortByCmp_zero _ _ (fun a ha b hb => taskCmp_zero_of_undef k ord a b (h a ha) (h b hb))

/-- C7, witness at an unrecognized field name over two records. -/
theorem sortStage_unknown_field_noop_witness :
    sortStage
      [⟨JsVal.str "a", JsVal.str "Z", JsVal.str "", JsVal.bool false,
        JsVal.str "low", JsVal.str "2", JsVal.str "2"⟩,
      ⟨JsVal.str "b", JsVal.str "A", JsVal.str "", JsVal.bool true,
        JsVal.str "high", JsVal.str "1", JsVal.str "1"⟩] "banana" (-1) =
      [⟨JsVal.str "a", JsVal.str "Z", JsVal.str "", JsVal.bool false,
        JsVal.str "low", JsVal.str "2", JsVal.str "2"⟩,
      ⟨JsVal.str "b", JsVal.str "A", JsVal.str "", JsVal.bool true,
        JsVal.str "high", JsVal.str "1", JsVal.str "1"⟩] :=
  sortStage_unknown_field_noop _ "banana" (-1) (by decide)

/-- C9: a present completed parameter selects the records whose
completed field is strictly the boolean true exactly when the raw value
is the string true; any other present string selects the records whose
completed field is strictly the boolean false. -/
theorem completedFilter_only_true_selects (tasks : List StoredTask) (s : String)
    (h : s ≠ "true") :
    completedStage tasks (some s) =
      tasks.filter (fun t => t.completed == JsVal.bool false) ∧
    completedStage tasks (some "true") =
      tasks.filter (fun t => t.completed == JsVal.bool true) := by
  constructor
  · rw [completedStage]
    have hb : (s == "true") = false := by simpa using h
    rw [hb]
  · rw [completedStage]
    rw [show ("true" == "true") = true from rfl]

/-- C9, witness at the value banana over a mixed store. -/
theorem completedFilter_only_true_selects_witness :
    completedStage
      [⟨JsVal.str "a", JsVal.str "T", JsVal.str "", JsVal.bool true,
        JsVal.str "low", JsVal.str "1", JsVal.str "1"⟩,
      ⟨JsVal.str "b", JsVal.str "U", JsVal.str "", JsVal.bool false,
        JsVal.str "low", JsVal.str "2", JsVal.str "2"⟩] (some "banana") =
      List.filter (fun t => t.completed == JsVal.bool false)
      [⟨JsVal.str "a", JsVal.str "T", JsVal.str "", JsVal.bool true,
        JsVal.str "low", JsVal.str "1", JsVal.str "1"⟩,
      ⟨JsVal.str "b", JsVal.str "U", JsVal.str "", JsVal.bool false,
        JsVal.str "low", JsVal.str "2", JsVal.str "2"⟩] :=
  (completedFilter_only_true_selects _ "banana" (by decide)).1

/-- C8, counterexample: a candidate with an empty title, a falsy
non-string description (the boolean false), a present non-boolean
completed and a priority outside the allowed set produces only three
messages, because the description rule is guarded by truthiness; the
claim that every such candidate yields exactly four messages is false on
the code. -/
theorem validateTask_falsy_description_skipped :
    validateTask ⟨JsVal.str "", JsVal.bool false, JsVal.str "x", JsVal.str "bad"⟩ =
      ["Title is required and must be a non-empty string",
       "Completed must be a boolean",
       "Priority must be one of: low, medium, high"] ∧
    isString (JsVal.bool false) = false ∧
    validateTask ⟨JsVal.str "", JsVal.bool false, JsVal.str "x", JsVal.str "bad"⟩ ≠
      ["Title is required and must be a non-empty string",
       "Description must be a string",
       "Completed must be a boolean",
       "Priority must be one of: low, medium, high"] := by
  exact ⟨rfl, rfl, by decide⟩

/-- C8, amended: a candidate with an empty title, a truthy non-string
description, a present non-boolean completed and a truthy priority
outside the allowed set yields exactly the four corresponding messages
in fixed rule order, each rule evaluated independently. -/
theorem validateTask_four_simultaneous (c : Candidate)
    (h1 : c.title = JsVal.str "")
    (h3 : truthy c.description = true) (h3b : isString c.description = false)
    (h5 : c.completed ≠ JsVal.undef) (h5b : isBool c.completed = false)
    (h6 : truthy c.priority = true)
    (h6b : jsIncludes ["low", "medium", "high"] c.priority = false) :
    validateTask c =
      ["Title is required and must be a non-empty string",
       "Description must be a string",
       "Completed must be a boolean",
       "Priority must be one of: low, medium, high"] := by
  have e1 : titleMissing c = true := by rw [titleMissing, h1]; rfl
  have e2 : titleTooLong c = false := by rw [titleTooLong, h1]; rfl
  have e3 : descNotString c = true := by rw [descNotString, h3, h3b]; rfl
  have e4 : descTooLong c = false := by
    rw [descTooLong, jsLenGt_false_of_not_string _ _ h3b, Bool.and_false]
  have e5 : completedNotBool c = true := by
    have hb : (c.completed == JsVal.undef) = false := by simpa using h5
    rw [completedNotBool, h5b, hb]
    rfl
  have e6 : priorityBad c = true := by rw [priorityBad, h6, h6b]; rfl
  rw [validateTask, e1, e2, e3, e4, e5, e6]
  rfl

/-- C8, witness at the candidate of the multiple-violations unit test. -/
theorem validateTask_four_simultaneous_witness :
    validateTask ⟨JsVal.str "", JsVal.num 123, JsVal.str "false", JsVal.str "urgent"⟩ =
      ["Title is required and must be a non-empty string",
       "Description must be a string",
       "Completed must be a boolean",
       "Priority must be one of: low, medium, high"] :=
  validateTask_four_simultaneous _ rfl (by decide) rfl (by decide) rfl (by decide) (by decide)

/-- C6: an otherwise valid create or update whose email equals the email
of a different existing user answers 409 with the message Email already
exists and returns the store unchanged, so the record already holding
the email is unaffected. -/
theorem usersApi_duplicate_email_conflict (db : UsersDb) (req : UserRequest)
    (now : String) (uid : Int)
    (hval : validateUser req = [])
    (htgt : ∃ t ∈ db.users, t.id = uid)
    (hdup : ∃ u2 ∈ db.users, u2.id ≠ uid ∧ u2.email = req.email) :
    createUserHandler db req now = (UserApiResult.conflict "Email already exists", db) ∧
    updateUserHandler db uid req = (UserApiResult.conflict "Email already exists", db) := by
  obtain ⟨t0, ht0, htid⟩ := htgt
  obtain ⟨u2, hu2, hune, hueq⟩ := hdup
  have hvne : ¬ validateUser req ≠ [] := by simpa using hval
  constructor
  · rw [createUserHandler, if_neg hvne]
    have hins : dbInsertUser db req now = .error () := by
      rw [dbInsertUser, if_pos ?_]
      exact List.any_eq_true.mpr ⟨u2, hu2, by simpa using hueq⟩
    rw [hins]
  · rw [updateUserHandler, if_neg hvne]
    have hupd : dbUpdateUser db uid req = .error () := by
      have c1 : db.users.any (fun r => r.id == uid) = true :=
        List.any_eq_true.mpr ⟨t0, ht0, by simpa using htid⟩
      have c2 : db.users.any (fun r => r.id != uid && r.email == req.email) = true := by
        refine List.any_eq_true.mpr ⟨u2, hu2, ?_⟩
        have hb1 : (u2.id != uid) = true := by simpa using hune
        have hb2 : (u2.email == req.email) = true := by simpa using hueq
        rw [hb1, hb2]
        rfl
      rw [dbUpdateUser, if_pos c1, if_pos c2]
    rw [hupd]

/-- C6, witness: a two-user store, a valid request reusing the first
email, targeting the second user. -/
theorem usersApi_duplicate_email_conflict_witness :
    createUserHandler ⟨[⟨1, "A", "a@b.com", 30, "t0"⟩, ⟨2, "B", "b@b.com", 25, "t0"⟩], 3⟩
        ⟨"C", "a@b.com", 20⟩ "t1" =
      (UserApiResult.conflict "Email already exists",
        ⟨[⟨1, "A", "a@b.com", 30, "t0"⟩, ⟨2, "B", "b@b.com", 25, "t0"⟩], 3⟩) ∧
    updateUserHandler ⟨[⟨1, "A", "a@b.com", 30, "t0"⟩, ⟨2, "B", "b@b.com", 25, "t0"⟩], 3⟩
        2 ⟨"C", "a@b.com", 20⟩ =
      (UserApiResult.conflict "Email already exists",
        ⟨[⟨1, "A", "a@b.com", 30, "t0"⟩, ⟨2, "B", "b@b.com", 25, "t0"⟩], 3⟩) :=
  usersApi_duplicate_email_conflict
    ⟨[⟨1, "A", "a@b.com", 30, "t0"⟩, ⟨2, "B", "b@b.com", 25, "t0"⟩], 3⟩
    ⟨"C", "a@b.com", 20⟩ "t1" 2 (by decide) (by decide) (by decide)

/-- C10: after any sequence of create, update, delete and delete-all
operations against the initially empty store, every stored record passes
validateTask with zero violations: creates are validated before
insertion and updates validate the merged record before storing it. -/
theorem tasksStore_always_valid (ops : List TaskOp) :
    ∀ t ∈ ops.foldl applyOp [], validateTask (candOf t) = [] :=
  foldl_applyOp_valid ops [] (fun t ht => absurd ht (List.not_mem_nil t))

/-- C10, witness: the record created by one valid post passes the
validator. -/
theorem tasksStore_always_valid_witness :
    validateTask (candOf (createTask
      ⟨JsVal.str "Hello", JsVal.undef, JsVal.undef, JsVal.undef⟩ "id1" "t1")) = [] :=
  tasksStore_always_valid
    [TaskOp.post ⟨JsVal.str "Hello", JsVal.undef, JsVal.undef, JsVal.undef⟩ "id1" "t1"]
    (createTask ⟨JsVal.str "Hello", JsVal.undef, JsVal.undef, JsVal.undef⟩ "id1" "t1")
    (by decide)
